import Mathlib

/-!
Verification of the per-frame animation and interaction logic of the
cat-tree greeting scene. The definitions below are shallow embeddings of
the TypeScript source (`src/components/CatTreeScene.tsx` and the `App`
component): pure functions of the source become Lean functions, the
stateful click/timer and audio logic become explicit state passing, and
the host environment's primitives (`Math.random`, the promise outcome of
`audio.play()`) become explicit inputs.
-/

namespace CatTree

/-! ## Blush click timer (`handleHeadClick` / `setTimeout` semantics)

`handleHeadClick` sets `isBlushing` to `true`, clears any pending
timeout and schedules a fresh timeout that sets `isBlushing` to `false`
2000 ms later. We model the component state as the boolean together
with the (single) pending timeout's expiry time; `clearTimeout`
followed by `setTimeout` is an overwrite of that slot. -/

structure BlushState where
  isBlushing : Bool
  timeout : Option ℚ
  deriving DecidableEq, Repr

/-- Initial component state: `useState(false)`, no timer scheduled. -/
def initBlush : BlushState := ⟨false, none⟩

/-- Let wall-clock time advance to `t`: a pending timeout whose expiry is
`≤ t` has fired, running `setIsBlushing(false)`. -/
def advanceTo (s : BlushState) (t : ℚ) : BlushState :=
  match s.timeout with
  | some e => if e ≤ t then ⟨false, none⟩ else s
  | none => s

/-- `handleHeadClick` at wall-clock time `c`: `setIsBlushing(true)`, then
`clearTimeout` on the pending timer and `setTimeout(…, 2000)`. -/
def handleHeadClick (_s : BlushState) (c : ℚ) : BlushState :=
  ⟨true, some (c + 2)⟩

/-- The value of `isBlushing` observed at time `t`, given the (ordered)
list of click times: every click that has already happened is processed
(time advances to the click, then the handler runs), then time advances
to `t`. -/
def blushAt (clicks : List ℚ) (t : ℚ) : Bool :=
  (advanceTo
    ((clicks.filter (fun c => decide (c ≤ t))).foldl
      (fun s c => handleHeadClick (advanceTo s c) c) initBlush) t).isBlushing

/-! ## Audio autoplay and toggle (`App`) -/

/-- Outcome of the `audio.play()` promise delivered to the mount effect:
`none` models `playPromise === undefined`, `some (Except.ok ())` a
resolution, `some (Except.error e)` a rejection with reason `e`. -/
def handleAutoplay (playPromise : Option (Except String Unit))
    (isPlaying : Bool) : Bool × Option String :=
  match playPromise with
  | none => (isPlaying, none)
  | some (Except.ok _) => (true, none)
  | some (Except.error _) => (false, none)

/-- `toggleMusic`: the audio element (`none` when the ref is empty,
`some playing` otherwise) and the `isPlaying` state. Pausing and playing
update the element; the branch is chosen by `isPlaying`. -/
def toggleMusic (audio : Option Bool) (isPlaying : Bool) :
    Option Bool × Bool :=
  match audio with
  | none => (audio, isPlaying)
  | some _ => if isPlaying then (some false, false) else (some true, true)

end CatTree

namespace CatTree

/-- C1: Repeated head clicks reset the blush decay timer. Clicking at
t = 0 and again at t = 1.5 s keeps `isBlushing` true for all
0 ≤ t < 3.5 (in particular past t = 2.0), it is false from t = 3.5 on,
and in general, after any sequence of clicks ending with a click at
time `c`, once all clicks have happened `isBlushing` is true exactly
when `t < c + 2`: the earlier pending timer is cancelled and only the
one scheduled by the most recent click matters. -/
theorem blush_timer_reset_on_click :
    (∀ t : ℚ, 0 ≤ t → t < 7/2 → blushAt [0, 3/2] t = true) ∧
    (∀ t : ℚ, 7/2 ≤ t → blushAt [0, 3/2] t = false) ∧
    (∀ (cs : List ℚ) (c t : ℚ), (∀ x ∈ cs, x ≤ t) → c ≤ t →
      (blushAt (cs ++ [c]) t = true ↔ t < c + 2)) := by
  have general : ∀ (cs : List ℚ) (c t : ℚ), (∀ x ∈ cs, x ≤ t) → c ≤ t →
      (blushAt (cs ++ [c]) t = true ↔ t < c + 2) := by
    intro cs c t hcs hc
    have hfilter : (cs ++ [c]).filter (fun x => decide (x ≤ t)) = cs ++ [c] := by
      rw [List.filter_eq_self]
      intro a ha
      rcases List.mem_append.mp ha with h | h
      · exact decide_eq_true (hcs a h)
      · simp only [List.mem_singleton] at h
        exact decide_eq_true (h ▸ hc)
    rw [blushAt, hfilter, List.foldl_append]
    simp only [List.foldl_cons, List.foldl_nil, handleHeadClick, advanceTo]
    by_cases hexp : c + 2 ≤ t
    · simp only [if_pos hexp]
      constructor
      · intro h; exact absurd h (by simp)
      · intro h; linarith
    · simp only [if_neg hexp]
      constructor
      · intro _; linarith [lt_of_not_le hexp]
      · intro _; trivial
  refine ⟨?_, ?_, general⟩
  · intro t ht0 ht
    rcases le_or_lt (3/2 : ℚ) t with h32 | h32
    · have h := general [0] (3/2) t
        (by intro x hx; simp only [List.mem_singleton] at hx; exact hx ▸ ht0) h32
      simp only [List.cons_append, List.nil_append] at h
      exact h.mpr (by linarith)
    · have hfilter : ([0, 3/2] : List ℚ).filter (fun x => decide (x ≤ t)) = [0] := by
        simp only [List.filter, decide_eq_true ht0,
          decide_eq_false (by linarith : ¬ (3/2 : ℚ) ≤ t)]
      rw [blushAt, hfilter]
      simp only [List.foldl_cons, List.foldl_nil, handleHeadClick, advanceTo, initBlush]
      rw [if_neg (by linarith : ¬ (0 + 2 : ℚ) ≤ t)]
  · intro t ht
    have h := general [0] (3/2) t
      (by intro x hx; simp only [List.mem_singleton] at hx
          rw [hx]; linarith) (by linarith)
    simp only [List.cons_append, List.nil_append] at h
    rw [← Bool.not_eq_true]
    intro hb
    exact absurd (h.mp hb) (by linarith)

/-- Witness for `blush_timer_reset_on_click` at concrete times: blush is
still on at t = 2 after clicks at 0 and 1.5, off at t = 3.5, and a
click at time 2 (after one at time 1) keeps it on at t = 3. -/
theorem blush_timer_reset_on_click_witness :
    blushAt [0, 3/2] 2 = true ∧ blushAt [0, 3/2] (7/2) = false ∧
    (blushAt ([1] ++ [2]) 3 = true ↔ (3 : ℚ) < 2 + 2) :=
  ⟨blush_timer_reset_on_click.1 2 (by norm_num) (by norm_num),
   blush_timer_reset_on_click.2.1 (7/2) (by norm_num),
   blush_timer_reset_on_click.2.2 [1] 2 3
     (by intro x hx; simp only [List.mem_singleton] at hx; rw [hx]; norm_num)
     (by norm_num)⟩

end CatTree

namespace CatTree

/-- C7: Audio autoplay rejection is handled silently. A rejected
`audio.play()` promise is caught: `isPlaying` becomes `false` and no
error propagates out of the handler (the second component, the
propagated error, is `none`); a resolved promise sets `isPlaying` to
`true`, also without propagating anything. -/
theorem autoplay_rejection_silent :
    ∀ (e : String) (b : Bool),
      handleAutoplay (some (Except.error e)) b = (false, none) ∧
      handleAutoplay (some (Except.ok ())) b = (true, none) :=
  fun _ _ => ⟨rfl, rfl⟩

/-- C10: `toggleMusic` is an involution on the playing state when the
audio element is present: one call flips `isPlaying`, and a second call
applied to the resulting state restores the original value. -/
theorem toggle_music_involution :
    ∀ (a b : Bool),
      (toggleMusic (some a) b).2 = !b ∧
      (toggleMusic (toggleMusic (some a) b).1 (toggleMusic (some a) b).2).2 = b := by
  intro a b
  cases b <;> simp [toggleMusic]

end CatTree

namespace CatTree

/-! ## The per-frame animator of `CalicoCat` (`useFrame` callback)

`THREE.MathUtils.lerp(x, y, t) = (1 - t) * x + t * y` (no clamping of
`t`), `THREE.Color.lerp` interpolates each channel the same way. The
mutable scene nodes touched by the callback are collected in
`CatState`; `catFrame` is the body of the `useFrame` callback, taking
the frame inputs (elapsed time, frame delta, normalized pointer, and
the current `isBlushing` flag) and producing the updated node state. -/

/-- `THREE.MathUtils.lerp`. -/
noncomputable def mathLerp (x y t : ℝ) : ℝ := (1 - t) * x + t * y

/-- Iterating the lerp toward a constant target `T` with constant
factor `a`, starting from `x` (consecutive frames of head tracking). -/
noncomputable def lerpIter (x T a : ℝ) : ℕ → ℝ
  | 0 => x
  | n + 1 => mathLerp (lerpIter x T a n) T a

/-- The scene-node values written by (or visible to) the cat's
`useFrame` callback: rotations and positions of head, body, tail and
arms, the cheek mesh parameters, and the persistent smoothed blush. -/
structure CatState where
  headRotX : ℝ
  headRotY : ℝ
  headRotZ : ℝ
  bodyPosY : ℝ
  bodyRotZ : ℝ
  tailRotY : ℝ
  tailRotX : ℝ
  leftArmRotZ : ℝ
  rightArmPosX : ℝ
  rightArmPosY : ℝ
  rightArmPosZ : ℝ
  rightArmRotZ : ℝ
  leftCheekScale : ℝ
  rightCheekScale : ℝ
  leftCheekOpacity : ℝ
  rightCheekOpacity : ℝ
  leftCheekColorG : ℝ
  rightCheekColorG : ℝ
  currentBlush : ℝ

/-- Inputs of one frame: `state.clock.elapsedTime`, `delta`,
`state.pointer.x/y`, and the `isBlushing` React state. -/
structure FrameInput where
  t : ℝ
  delta : ℝ
  pointerX : ℝ
  pointerY : ℝ
  isBlushing : Bool

/-- Static construction values from the JSX: body group at y = -1.8,
tail rotation x = -0.5, left arm rotation z = 2.5, right arm at
position [-0.7, 0.6, 0.3] with rotation z = -2.0, cheeks at scale 1
and opacity 0.4 with color `#ffb7b2` (green channel 183/255), blush 0. -/
noncomputable def catInit : CatState where
  headRotX := 0
  headRotY := 0
  headRotZ := 0
  bodyPosY := -1.8
  bodyRotZ := 0
  tailRotY := 0
  tailRotX := -0.5
  leftArmRotZ := 2.5
  rightArmPosX := -0.7
  rightArmPosY := 0.6
  rightArmPosZ := 0.3
  rightArmRotZ := -2.0
  leftCheekScale := 1
  rightCheekScale := 1
  leftCheekOpacity := 0.4
  rightCheekOpacity := 0.4
  leftCheekColorG := 183 / 255
  rightCheekColorG := 183 / 255
  currentBlush := 0

/-- One invocation of the `CalicoCat` `useFrame` callback. The cheek
color interpolates from `#ffb7b2` toward `#ff80ab`; only the green
channel distinguishes rest from flush in a nontrivial way (red is 255
in both), and we track it as the representative channel. -/
noncomputable def catFrame (inp : FrameInput) (s : CatState) : CatState :=
  let t := inp.t
  let baseRotY := Real.sin (t * 1) * 0.1
  let baseRotZ := Real.sin (t * 2) * 0.05
  let mouseX := inp.pointerX * 0.6
  let mouseY := inp.pointerY * 0.3
  let targetBlush : ℝ := if inp.isBlushing then 1 else 0
  let newBlush := mathLerp s.currentBlush targetBlush (inp.delta * 3.0)
  let blushScale := 1.0 + newBlush * 0.2
  let blushOpacity := 0.2 + newBlush * 0.6
  let blushColorG := mathLerp (183 / 255) (128 / 255) newBlush
  { s with
    headRotY := mathLerp s.headRotY (baseRotY + mouseX) 0.1
    headRotX := mathLerp s.headRotX (-mouseY) 0.1
    headRotZ := baseRotZ
    bodyPosY := -1.8 + Real.sin (t * 2) * 0.03
    bodyRotZ := Real.sin (t * 1.5) * 0.04
    tailRotY := Real.sin (t * 3) * 0.3
    tailRotX := -0.5 + Real.sin (t * 5) * 0.05
    leftArmRotZ := 2.5 + Real.sin (t * 2.5) * 0.15
    currentBlush := newBlush
    leftCheekScale := blushScale
    rightCheekScale := blushScale
    leftCheekOpacity := blushOpacity
    rightCheekOpacity := blushOpacity
    leftCheekColorG := blushColorG
    rightCheekColorG := blushColorG }

/-- A sequence of frames applied in order. -/
noncomputable def runFrames (s : CatState) (fs : List FrameInput) : CatState :=
  fs.foldl (fun s i => catFrame i s) s

end CatTree

namespace CatTree

/-- The blush component of one frame is exactly the unclamped
`THREE.MathUtils.lerp` of the stored value toward the 0/1 target with
factor `delta * 3.0`. -/
theorem catFrame_currentBlush (inp : FrameInput) (s : CatState) :
    (catFrame inp s).currentBlush =
      mathLerp s.currentBlush (if inp.isBlushing then 1 else 0) (inp.delta * 3.0) :=
  rfl

/-- An unclamped lerp between points of `[0, 1]` with factor in `[0, 1]`
stays in `[0, 1]`. -/
theorem mathLerp_mem_unit {b y a : ℝ} (hb0 : 0 ≤ b) (hb1 : b ≤ 1)
    (hy0 : 0 ≤ y) (hy1 : y ≤ 1) (ha0 : 0 ≤ a) (ha1 : a ≤ 1) :
    0 ≤ mathLerp b y a ∧ mathLerp b y a ≤ 1 := by
  unfold mathLerp
  constructor <;> nlinarith

/-- C2 counterexample: the claim fails for arbitrary non-negative frame
deltas. A single frame with `delta = 1` and the blush target at 1 drives
`currentBlush` from 0 to `lerp(0, 1, 3) = 3`, outside `[0, 1]`: the
smoothing factor `delta * 3.0` is not clamped. -/
theorem blush_overshoot_counterexample :
    (runFrames catInit [⟨0, 1, 0, 0, true⟩]).currentBlush = 3 ∧
    ¬ (runFrames catInit [⟨0, 1, 0, 0, true⟩]).currentBlush ≤ 1 := by
  have h : (runFrames catInit [⟨0, 1, 0, 0, true⟩]).currentBlush =
      mathLerp 0 (if (true : Bool) then (1 : ℝ) else 0) (1 * 3.0) := rfl
  rw [h]
  simp only [mathLerp, if_true]
  norm_num

/-- C2 (amended): the smoothed blush scalar stays in `[0, 1]` for every
frame sequence whose deltas lie in `[0, 1/3]` (so that the smoothing
factor `delta * 3.0` lies in `[0, 1]`), starting from any stored value
in `[0, 1]` — in particular from the initial 0. -/
theorem blush_scalar_stays_in_unit :
    ∀ (fs : List FrameInput) (s : CatState),
      0 ≤ s.currentBlush → s.currentBlush ≤ 1 →
      (∀ i ∈ fs, 0 ≤ i.delta ∧ i.delta ≤ 1/3) →
      0 ≤ (runFrames s fs).currentBlush ∧ (runFrames s fs).currentBlush ≤ 1 := by
  intro fs
  induction fs with
  | nil =>
    intro s h0 h1 _
    exact ⟨h0, h1⟩
  | cons i fs ih =>
    intro s h0 h1 hall
    have hi := hall i (List.mem_cons_self i fs)
    have hstep : 0 ≤ (catFrame i s).currentBlush ∧ (catFrame i s).currentBlush ≤ 1 := by
      rw [catFrame_currentBlush]
      have ha0 : 0 ≤ i.delta * 3.0 := by nlinarith [hi.1]
      have ha1 : i.delta * 3.0 ≤ 1 := by nlinarith [hi.2]
      by_cases hbl : i.isBlushing = true
      · rw [if_pos hbl]
        exact mathLerp_mem_unit h0 h1 zero_le_one le_rfl ha0 ha1
      · rw [if_neg hbl]
        exact mathLerp_mem_unit h0 h1 le_rfl zero_le_one ha0 ha1
    have hrw : runFrames s (i :: fs) = runFrames (catFrame i s) fs := rfl
    rw [hrw]
    exact ih (catFrame i s) hstep.1 hstep.2
      (fun j hj => hall j (List.mem_cons_of_mem i hj))

/-- Witness for `blush_scalar_stays_in_unit`: one frame of maximal
allowed delta 1/3 from the initial state. -/
theorem blush_scalar_stays_in_unit_witness :
    0 ≤ (runFrames catInit [⟨0, 1/3, 0, 0, true⟩]).currentBlush ∧
    (runFrames catInit [⟨0, 1/3, 0, 0, true⟩]).currentBlush ≤ 1 :=
  blush_scalar_stays_in_unit [⟨0, 1/3, 0, 0, true⟩] catInit
    (le_refl 0) (by norm_num [catInit]) (by
      intro i hi
      simp only [List.mem_singleton] at hi
      rw [hi]
      norm_num)

end CatTree

namespace CatTree

/-- C8: Body vertical bob is bounded by its amplitude. Every frame
writes `bodyPosY = -1.8 + sin(t * 2) * 0.03`, so for every elapsed time
t ≥ 0 the offset from the rest height -1.8 equals `0.03 * sin(2 * t)`
and lies within `[-0.03, 0.03]`. -/
theorem body_bob_bounded :
    ∀ (inp : FrameInput) (s : CatState), 0 ≤ inp.t →
      (catFrame inp s).bodyPosY - (-1.8) = 0.03 * Real.sin (2 * inp.t) ∧
      -0.03 ≤ (catFrame inp s).bodyPosY - (-1.8) ∧
      (catFrame inp s).bodyPosY - (-1.8) ≤ 0.03 := by
  intro inp s _
  have h : (catFrame inp s).bodyPosY = -1.8 + Real.sin (inp.t * 2) * 0.03 := rfl
  rw [h, mul_comm inp.t 2]
  refine ⟨by ring, ?_, ?_⟩ <;>
    nlinarith [Real.neg_one_le_sin (2 * inp.t), Real.sin_le_one (2 * inp.t)]

/-- Witness for `body_bob_bounded` at t = 0 from the initial state. -/
theorem body_bob_bounded_witness :
    (catFrame ⟨0, 0, 0, 0, false⟩ catInit).bodyPosY - (-1.8) =
      0.03 * Real.sin (2 * (0 : ℝ)) ∧
    -0.03 ≤ (catFrame ⟨0, 0, 0, 0, false⟩ catInit).bodyPosY - (-1.8) ∧
    (catFrame ⟨0, 0, 0, 0, false⟩ catInit).bodyPosY - (-1.8) ≤ 0.03 :=
  body_bob_bounded ⟨0, 0, 0, 0, false⟩ catInit le_rfl

/-- C9 counterexample: the head, body, tail and left arm are not the
only cat nodes the per-frame animator writes. The cheek meshes are
written too: one frame with `isBlushing = true` and `delta = 1/3`
changes the left cheek scale from its constructed value 1 to 1.2. -/
theorem frame_writes_cheeks_counterexample :
    (catFrame ⟨0, 1/3, 0, 0, true⟩ catInit).leftCheekScale ≠ catInit.leftCheekScale := by
  have h1 : (catFrame ⟨0, 1/3, 0, 0, true⟩ catInit).leftCheekScale =
      1.0 + mathLerp 0 (if (true : Bool) = true then (1 : ℝ) else 0) ((1/3) * 3.0) * 0.2 :=
    rfl
  have h2 : catInit.leftCheekScale = 1 := rfl
  rw [h1, h2]
  simp only [mathLerp, if_pos rfl]
  norm_num

/-- C9 (amended): the per-frame animator never mutates the right arm —
for every frame input and every state, the right arm group's position
and rotation are left exactly as they were, and their static
construction values are position [-0.7, 0.6, 0.3] and rotation
z = -2.0. The nodes the callback does write are the head, body, tail,
left arm and the two cheek meshes. -/
theorem frame_preserves_right_arm :
    ∀ (inp : FrameInput) (s : CatState),
      (catFrame inp s).rightArmPosX = s.rightArmPosX ∧
      (catFrame inp s).rightArmPosY = s.rightArmPosY ∧
      (catFrame inp s).rightArmPosZ = s.rightArmPosZ ∧
      (catFrame inp s).rightArmRotZ = s.rightArmRotZ ∧
      catInit.rightArmPosX = -0.7 ∧ catInit.rightArmPosY = 0.6 ∧
      catInit.rightArmPosZ = 0.3 ∧ catInit.rightArmRotZ = -2.0 :=
  fun _ _ => ⟨rfl, rfl, rfl, rfl, rfl, rfl, rfl, rfl⟩

/-- C4: Exponential smoothing never overshoots. For every current value
`x`, constant target `T` and factor `a ∈ (0, 1]`, the updated value
`mathLerp x T a` lies between `x` and `T`, and over consecutive frames
with constant target the distance to `T` is non-increasing. -/
theorem head_lerp_no_overshoot :
    ∀ (x T a : ℝ) (n : ℕ), 0 < a → a ≤ 1 →
      (min x T ≤ mathLerp x T a ∧ mathLerp x T a ≤ max x T) ∧
      |lerpIter x T a (n + 1) - T| ≤ |lerpIter x T a n - T| := by
  intro x T a n ha0 ha1
  have key : ∀ y : ℝ, mathLerp y T a - T = (1 - a) * (y - T) := by
    intro y
    simp only [mathLerp]
    ring
  constructor
  · rcases le_total x T with h | h
    · rw [min_eq_left h, max_eq_right h]
      simp only [mathLerp]
      constructor <;> nlinarith
    · rw [min_eq_right h, max_eq_left h]
      simp only [mathLerp]
      constructor <;> nlinarith
  · have h1 : lerpIter x T a (n + 1) = mathLerp (lerpIter x T a n) T a := rfl
    rw [h1, key, abs_mul, abs_of_nonneg (by linarith : (0 : ℝ) ≤ 1 - a)]
    nlinarith [abs_nonneg (lerpIter x T a n - T)]

/-- Witness for `head_lerp_no_overshoot` with the head-tracking factor
0.1 of the source, from 0 toward target 1. -/
theorem head_lerp_no_overshoot_witness :
    (min (0 : ℝ) 1 ≤ mathLerp 0 1 (1/10) ∧ mathLerp 0 1 (1/10) ≤ max (0 : ℝ) 1) ∧
    |lerpIter 0 1 (1/10) (0 + 1) - 1| ≤ |lerpIter 0 1 (1/10) 0 - 1| :=
  head_lerp_no_overshoot 0 1 (1/10) 0 (by norm_num) (by norm_num)

end CatTree

namespace CatTree

/-! ## Whole-tree rotation (`RotatingTree` useFrame callback)

Every frame executes `ref.current.rotation.y += delta * 0.15`; the
angle is the fold of that update over the per-frame deltas
(0.15 = 3/20). -/

/-- Accumulated `rotation.y` after the given list of frame deltas,
starting from the constructed value 0. -/
def rotAccum (deltas : List ℚ) : ℚ :=
  deltas.foldl (fun r d => r + d * (3/20)) 0

/-- Folding the per-frame increment from any start value adds
`3/20 * sum`. -/
theorem rotAccum_foldl (a : ℚ) (ds : List ℚ) :
    ds.foldl (fun r d => r + d * (3/20)) a = a + 3/20 * ds.sum := by
  induction ds generalizing a with
  | nil => simp
  | cons d ds ih =>
    rw [List.foldl_cons, ih, List.sum_cons]
    ring

/-- C5: Whole-tree rotation is frame-rate independent. For every total
elapsed time `T` and every partition of `T` into per-frame deltas, the
accumulated angle equals `3/20 * T` exactly — hence it is congruent to
`0.15 * T` modulo `2π` (with multiple 0) and is the same for any other
partition of the same total time. -/
theorem tree_rotation_rate_independent :
    ∀ (ds ds2 : List ℚ) (T : ℚ), ds.sum = T → ds2.sum = T →
      rotAccum ds = 3/20 * T ∧
      AddCommGroup.ModEq (2 * Real.pi) ((rotAccum ds : ℚ) : ℝ) (3/20 * (T : ℝ)) ∧
      rotAccum ds2 = rotAccum ds := by
  intro ds ds2 T h h2
  have he : ∀ l : List ℚ, l.sum = T → rotAccum l = 3/20 * T := by
    intro l hl
    rw [rotAccum, rotAccum_foldl, hl]
    ring
  refine ⟨he ds h, ⟨0, ?_⟩, (he ds2 h2).trans (he ds h).symm⟩
  rw [he ds h]
  push_cast
  simp

/-- Witness for `tree_rotation_rate_independent`: two 1/60 s frames
against a single 1/30 s frame. -/
theorem tree_rotation_rate_independent_witness :
    rotAccum [1/60, 1/60] = 3/20 * (1/30) ∧
    AddCommGroup.ModEq (2 * Real.pi) ((rotAccum [1/60, 1/60] : ℚ) : ℝ)
      (3/20 * ((1/30 : ℚ) : ℝ)) ∧
    rotAccum [1/30] = rotAccum [1/60, 1/60] :=
  tree_rotation_rate_independent [1/60, 1/60] [1/30] (1/30)
    (by norm_num) (by norm_num)

end CatTree

namespace CatTree

/-! ## Drifting snow (`DriftingSnow` useFrame callback)

Per particle and frame: `y -= speed`, then lateral drift
`x += sin(time * 0.5 + driftOffset) * 0.02`,
`z += cos(time * 0.3 + driftOffset) * 0.02`, then the wraparound check
`if (y < -3) { y = 10; x = (random - 0.5) * 15; z = (random - 0.5) * 15 }`.
The host primitives are passed in: `sd`/`cd` are the values of
`Math.sin(time * 0.5 + driftOffset)` and
`Math.cos(time * 0.3 + driftOffset)`, and `rx`/`rz` the two
`Math.random()` draws (each in `[0, 1)`). -/

structure Particle where
  x : ℚ
  y : ℚ
  z : ℚ
  speed : ℚ
  driftOffset : ℚ
  scale : ℚ
  deriving DecidableEq, Repr

/-- One frame update of one snow particle. -/
def snowStep (sd cd rx rz : ℚ) (p : Particle) : Particle :=
  let y1 := p.y - p.speed
  let x1 := p.x + sd * 0.02
  let z1 := p.z + cd * 0.02
  if y1 < -3 then
    ⟨(rx - 0.5) * 15, 10, (rz - 0.5) * 15, p.speed, p.driftOffset, p.scale⟩
  else
    ⟨x1, y1, z1, p.speed, p.driftOffset, p.scale⟩

/-- C3 counterexample: the freshly randomized coordinates do not lie in
the open interval (-7.5, 7.5). `Math.random()` can return 0, and then
the reset writes `x = (0 - 0.5) * 15 = -7.5`, the left endpoint
itself: a particle at y = -3 with speed 1/2 falls to -3.5 < -3 and is
reset to x = -7.5. -/
theorem snow_reset_boundary_counterexample :
    (snowStep 0 0 0 0 ⟨0, -3, 0, 1/2, 0, 1⟩).y = 10 ∧
    (snowStep 0 0 0 0 ⟨0, -3, 0, 1/2, 0, 1⟩).x = -(15/2) ∧
    ¬ (-(15/2) < (snowStep 0 0 0 0 ⟨0, -3, 0, 1/2, 0, 1⟩).x) := by
  refine ⟨?_, ?_, ?_⟩ <;> norm_num [snowStep]

/-- C3 (amended): for every particle and frame, the new y is either the
old y minus the particle's fall speed (when that value is not below
-3), or, when it is below -3, the particle is reset to y = 10 with x
and z freshly randomized in the half-open spawn range [-7.5, 7.5)
(image of `Math.random() ∈ [0, 1)` under `(r - 0.5) * 15`). -/
theorem snow_step_wraparound :
    ∀ (sd cd rx rz : ℚ) (p : Particle),
      0 ≤ rx → rx < 1 → 0 ≤ rz → rz < 1 →
      ((¬ (p.y - p.speed < -3)) ∧
        (snowStep sd cd rx rz p).y = p.y - p.speed) ∨
      ((p.y - p.speed < -3) ∧ (snowStep sd cd rx rz p).y = 10 ∧
        -(15/2) ≤ (snowStep sd cd rx rz p).x ∧ (snowStep sd cd rx rz p).x < 15/2 ∧
        -(15/2) ≤ (snowStep sd cd rx rz p).z ∧ (snowStep sd cd rx rz p).z < 15/2) := by
  intro sd cd rx rz p hx0 hx1 hz0 hz1
  have hs : snowStep sd cd rx rz p =
      if p.y - p.speed < -3 then
        (⟨(rx - 0.5) * 15, 10, (rz - 0.5) * 15, p.speed, p.driftOffset, p.scale⟩ : Particle)
      else
        ⟨p.x + sd * 0.02, p.y - p.speed, p.z + cd * 0.02,
          p.speed, p.driftOffset, p.scale⟩ := rfl
  by_cases h : p.y - p.speed < -3
  · right
    rw [hs, if_pos h]
    refine ⟨h, rfl, ?_, ?_, ?_, ?_⟩ <;> dsimp only <;> nlinarith
  · left
    rw [hs, if_neg h]
    exact ⟨h, rfl⟩

/-- Witness for `snow_step_wraparound`: a particle crossing the floor
with both random draws equal to 1/2. -/
theorem snow_step_wraparound_witness :
    ((¬ (((⟨0, -3, 0, 1/2, 0, 1⟩ : Particle)).y - ((⟨0, -3, 0, 1/2, 0, 1⟩ : Particle)).speed < -3)) ∧
      (snowStep 0 0 (1/2) (1/2) ⟨0, -3, 0, 1/2, 0, 1⟩).y =
        ((⟨0, -3, 0, 1/2, 0, 1⟩ : Particle)).y - ((⟨0, -3, 0, 1/2, 0, 1⟩ : Particle)).speed) ∨
    ((((⟨0, -3, 0, 1/2, 0, 1⟩ : Particle)).y - ((⟨0, -3, 0, 1/2, 0, 1⟩ : Particle)).speed < -3) ∧
      (snowStep 0 0 (1/2) (1/2) ⟨0, -3, 0, 1/2, 0, 1⟩).y = 10 ∧
      -(15/2) ≤ (snowStep 0 0 (1/2) (1/2) ⟨0, -3, 0, 1/2, 0, 1⟩).x ∧
      (snowStep 0 0 (1/2) (1/2) ⟨0, -3, 0, 1/2, 0, 1⟩).x < 15/2 ∧
      -(15/2) ≤ (snowStep 0 0 (1/2) (1/2) ⟨0, -3, 0, 1/2, 0, 1⟩).z ∧
      (snowStep 0 0 (1/2) (1/2) ⟨0, -3, 0, 1/2, 0, 1⟩).z < 15/2) :=
  snow_step_wraparound 0 0 (1/2) (1/2) ⟨0, -3, 0, 1/2, 0, 1⟩
    (by norm_num) (by norm_num) (by norm_num) (by norm_num)

end CatTree

namespace CatTree

/-! ## Clay wobble (`applyClayDistortion` in `PeelRibbon`)

The source perturbs each vertex of the ribbon geometry once:
`noiseX = sin(y * 3.0) * 0.03`, `noiseZ = cos(y * 4.5) * 0.03`,
`thicknessNoise = sin(y * 10 + x * 5) * 0.01`, added to x, z and y
respectively. A `userData.distorted` flag guards the whole pass, and a
`null` mesh is ignored. The host `Math.sin`/`Math.cos` are passed in
as `sinf`/`cosf`. -/

structure WobbleMesh where
  distorted : Bool
  positions : List (ℚ × ℚ × ℚ)
  deriving DecidableEq, Repr

/-- The per-vertex perturbation applied by the distortion loop; the
triple is (x, y, z). -/
def clayWobble (sinf cosf : ℚ → ℚ) (v : ℚ × ℚ × ℚ) : ℚ × ℚ × ℚ :=
  let noiseX := sinf (v.2.1 * 3.0) * 0.03
  let noiseZ := cosf (v.2.1 * 4.5) * 0.03
  let thicknessNoise := sinf (v.2.1 * 10 + v.1 * 5) * 0.01
  (v.1 + noiseX, v.2.1 + thicknessNoise, v.2.2 + noiseZ)

/-- `applyClayDistortion(mesh)`: no-op on `null`, no-op when the
`distorted` flag is already set, otherwise set the flag and perturb
every vertex. -/
def applyClayDistortion (sinf cosf : ℚ → ℚ) :
    Option WobbleMesh → Option WobbleMesh
  | none => none
  | some m =>
    if m.distorted then some m
    else some ⟨true, m.positions.map (clayWobble sinf cosf)⟩

/-- Applying the distortion twice is the same as applying it once: the
guard flag set by the first call makes the second call a no-op. -/
theorem applyClayDistortion_idem (sinf cosf : ℚ → ℚ) (m : Option WobbleMesh) :
    applyClayDistortion sinf cosf (applyClayDistortion sinf cosf m) =
      applyClayDistortion sinf cosf m := by
  cases m with
  | none => rfl
  | some mm =>
    by_cases h : mm.distorted
    · simp [applyClayDistortion, h]
    · simp [applyClayDistortion, h]

/-- C6: The clay-wobble perturbation runs at most once per mesh
instance. For every mesh (or `null`) and every n ≥ 1, n calls of
`applyClayDistortion` produce exactly the state after one call: the
guard flag makes all later calls no-ops, so the vertex positions are
perturbed a single time. -/
theorem clay_distortion_at_most_once :
    ∀ (sinf cosf : ℚ → ℚ) (m : Option WobbleMesh) (n : ℕ), 1 ≤ n →
      (applyClayDistortion sinf cosf)^[n] m = applyClayDistortion sinf cosf m := by
  intro sinf cosf m n hn
  obtain ⟨k, rfl⟩ : ∃ k, n = k + 1 := ⟨n - 1, (Nat.succ_pred_eq_of_pos hn).symm⟩
  clear hn
  induction k with
  | zero => simp
  | succ k ih =>
    rw [Function.iterate_succ_apply', ih]
    exact applyClayDistortion_idem sinf cosf m

/-- Witness for `clay_distortion_at_most_once`: two calls on a fresh
one-vertex mesh equal one call. -/
theorem clay_distortion_at_most_once_witness :
    (applyClayDistortion (fun q => q) (fun q => q))^[2]
        (some ⟨false, [(0, 0, 0)]⟩) =
      applyClayDistortion (fun q => q) (fun q => q) (some ⟨false, [(0, 0, 0)]⟩) :=
  clay_distortion_at_most_once (fun q => q) (fun q => q)
    (some ⟨false, [(0, 0, 0)]⟩) 2 (by norm_num)

end CatTree
